import Mathlib

/-
Verification of the type-layout alignment engine
(compiler/rustc_ty_utils/src/alignment.rs).

The development shallowly embeds the alignment resolver, the field-sequence
layout builder entry point, the SIMD vector resolver, and the coroutine
overlap planner.  External collaborators (the normalizer, the memoized layout
query, the sizedness oracle, the abi crate's layout calculators, the liveness
analysis) are modelled as components of an explicit context record, matching
the source's use of `tcx`/`LayoutCx`.  Machine sizes and alignments are
modelled as natural numbers of bytes.
-/

/-- Recognized representation options of an aggregate (ReprOptions): an
optional packing cap, an optional forced alignment, the SIMD flag and the
C-compatibility flag. -/
structure ReprOptions where
  pack : Option Nat
  align : Option Nat
  simd : Bool
  cRepr : Bool
deriving DecidableEq, Repr

/-- ReprOptions::default(): no packing, no forced alignment, not SIMD. -/
def ReprOptions.mkDefault : ReprOptions := ⟨none, none, false, false⟩

/-- Fixed-width signed integer type kinds (ty::IntTy). -/
inductive IntTy where
  | isize | i8 | i16 | i32 | i64 | i128
deriving DecidableEq, Repr

/-- Fixed-width unsigned integer type kinds (ty::UintTy). -/
inductive UintTy where
  | usize | u8 | u16 | u32 | u64 | u128
deriving DecidableEq, Repr

/-- Floating point type kinds (ty::FloatTy). -/
inductive FloatTy where
  | f32 | f64
deriving DecidableEq, Repr

mutual
/-- The recursive type shapes dispatched on by the alignment resolver
(the `ty::TyKind` cases matched in `align_of_uncached`).  Regions,
mutability and generic substitutions are erased: a type value is already
fully substituted.  A coroutine carries its identity and the list of
captured (upvar) types that `substs.as_generator().prefix_tys()` would
yield; an ADT carries its struct/union classification, its representation
options and the field types of each variant. -/
inductive Ty where
  | bool
  | char
  | int (ity : IntTy)
  | uint (uty : UintTy)
  | float (fty : FloatTy)
  | fnPtr
  | never
  | ref (pointee : Ty)
  | rawPtr (pointee : Ty)
  | dynStar
  | array (elem : Ty) (len : Nat)
  | slice (elem : Ty)
  | str
  | fnDef
  | dynamic
  | foreign
  | generator (defId : Nat) (prefixTys : TyList)
  | closure (upvarTys : TyList)
  | tuple (elems : TyList)
  | adt (isStruct : Bool) (isUnion : Bool) (repr : ReprOptions) (variants : TyVariants)
  | alias
  | placeholder
  | generatorWitness
  | infer
  | bound
  | param
  | tyError
deriving DecidableEq, Repr

/-- A list of types (used for tuple elements, closure captures, ADT
variant fields).  A separate inductive so that decidable equality of
types is derivable. -/
inductive TyList where
  | nil
  | cons (t : Ty) (ts : TyList)
deriving DecidableEq, Repr

/-- The list of variants of an ADT, each a list of field types. -/
inductive TyVariants where
  | nil
  | cons (v : TyList) (vs : TyVariants)
deriving DecidableEq, Repr
end

/-- View a TyList as an ordinary list. -/
def TyList.toList : TyList → List Ty
  | .nil => []
  | .cons t ts => t :: ts.toList

/-- View the variants of an ADT as an ordinary list of field lists. -/
def TyVariants.toList : TyVariants → List TyList
  | .nil => []
  | .cons v vs => v :: vs.toList

/-- Fixed-width integer layout primitives (abi::Integer). -/
inductive Integer where
  | I8 | I16 | I32 | I64 | I128
deriving DecidableEq, Repr

/-- A pair of byte alignments: the ABI-mandated minimum and the
optimization-preferred one (abi::AbiAndPrefAlign). -/
structure AbiAndPrefAlign where
  abi : Nat
  pref : Nat
deriving DecidableEq, Repr

/-- Pointwise maximum, the combination operator used throughout
(AbiAndPrefAlign::max). -/
def AbiAndPrefAlign.max (a b : AbiAndPrefAlign) : AbiAndPrefAlign :=
  ⟨Nat.max a.abi b.abi, Nat.max a.pref b.pref⟩

/-- The target data-layout table consulted for primitive alignments
(abi::TargetDataLayout): alignments of the fixed-width integers and
floats, of data and instruction pointers, the minimum aggregate
alignment, the pointer-sized integer, the pointer size in bytes, the
target rule mapping a total vector byte size to the vector alignment,
and the maximum representable object size. -/
structure DataLayout where
  i8Align : AbiAndPrefAlign
  i16Align : AbiAndPrefAlign
  i32Align : AbiAndPrefAlign
  i64Align : AbiAndPrefAlign
  i128Align : AbiAndPrefAlign
  f32Align : AbiAndPrefAlign
  f64Align : AbiAndPrefAlign
  dataPtrAlign : AbiAndPrefAlign
  instrPtrAlign : AbiAndPrefAlign
  aggregateAlign : AbiAndPrefAlign
  ptrSizedInt : Integer
  ptrSize : Nat
  vectorAlignFn : Nat → AbiAndPrefAlign
  objSizeBound : Nat

/-- Alignment of a fixed-width integer on the target (Integer::align). -/
def Integer.align (i : Integer) (dl : DataLayout) : AbiAndPrefAlign :=
  match i with
  | .I8 => dl.i8Align
  | .I16 => dl.i16Align
  | .I32 => dl.i32Align
  | .I64 => dl.i64Align
  | .I128 => dl.i128Align

/-- Byte size of a fixed-width integer (Integer::size). -/
def Integer.size : Integer → Nat
  | .I8 => 1
  | .I16 => 2
  | .I32 => 4
  | .I64 => 8
  | .I128 => 16

/-- Modelled from the spec: `Integer::fit_unsigned` (abi crate, external to
this file): the smallest unsigned integer width able to represent the given
value, used for the coroutine resumption-state tag. -/
def Integer.fitUnsigned (x : Nat) : Integer :=
  if x < 2 ^ 8 then .I8
  else if x < 2 ^ 16 then .I16
  else if x < 2 ^ 32 then .I32
  else if x < 2 ^ 64 then .I64
  else .I128

/-- Integer::from_int_ty: the layout integer of a signed integer type;
isize is the pointer-sized integer. -/
def Integer.fromIntTy (dl : DataLayout) : IntTy → Integer
  | .isize => dl.ptrSizedInt
  | .i8 => .I8
  | .i16 => .I16
  | .i32 => .I32
  | .i64 => .I64
  | .i128 => .I128

/-- Integer::from_uint_ty: the layout integer of an unsigned integer type;
usize is the pointer-sized integer. -/
def Integer.fromUintTy (dl : DataLayout) : UintTy → Integer
  | .usize => dl.ptrSizedInt
  | .u8 => .I8
  | .u16 => .I16
  | .u32 => .I32
  | .u64 => .I64
  | .u128 => .I128

/-- Scalar value primitives (abi::Primitive). -/
inductive Primitive where
  | int (i : Integer) (signed : Bool)
  | f32
  | f64
  | ptr
deriving DecidableEq, Repr

/-- Alignment of a primitive on the target (Primitive::align). -/
def Primitive.align (p : Primitive) (dl : DataLayout) : AbiAndPrefAlign :=
  match p with
  | .int i _ => i.align dl
  | .f32 => dl.f32Align
  | .f64 => dl.f64Align
  | .ptr => dl.dataPtrAlign

/-- Byte size of a primitive on the target (Primitive::size). -/
def Primitive.size (p : Primitive) (dl : DataLayout) : Nat :=
  match p with
  | .int i _ => i.size
  | .f32 => 4
  | .f64 => 8
  | .ptr => dl.ptrSize

/-- The ABI classification of a resolved layout, as far as this engine
inspects it: either a single scalar primitive or anything else. -/
inductive Abi where
  | Scalar (value : Primitive)
  | Aggregate
deriving DecidableEq, Repr

/-- The field arrangement of a resolved layout, as far as this engine
inspects it (FieldsShape): a primitive, an array with its element count,
or an arbitrary arrangement. -/
inductive FieldsShape where
  | Primitive
  | Array (count : Nat)
  | Arbitrary
deriving DecidableEq, Repr

/-- An already-resolved layout of one type or field: byte size, alignment
pair, ABI classification and field shape (LayoutS restricted to what the
alignment engine reads). -/
structure LayoutS where
  size : Nat
  align : AbiAndPrefAlign
  abi : Abi
  fieldsShape : FieldsShape
deriving DecidableEq, Repr

/-- A layout is a zero-sized type when it occupies no bytes
(TyAndLayout::is_zst). -/
def LayoutS.isZst (l : LayoutS) : Bool := l.size == 0

/-- Modelled from the spec: `LayoutS::scalar` (abi crate, external to this
file): the layout of a single scalar primitive. -/
def LayoutS.scalar (dl : DataLayout) (p : Primitive) : LayoutS :=
  { size := p.size dl, align := p.align dl, abi := .Scalar p, fieldsShape := .Primitive }

/-- The failure taxonomy of the resolver (LayoutError): an opaque or
unsupported shape, a size-arithmetic overflow, or a failure to normalize
the input type. -/
inductive LayoutError where
  | Unknown (t : Ty)
  | SizeOverflow (t : Ty)
  | NormalizationFailure (t : Ty)
deriving DecidableEq, Repr

/-- The result of a layout computation: a successful value, a propagated
recoverable failure, or an unrecoverable engine fault (the model of
`sess.fatal` / `bug!`, which abort the current query outright). -/
inductive Outcome (α : Type) where
  | ok (a : α)
  | err (e : LayoutError)
  | fatal (msg : String)
deriving DecidableEq, Repr

/-- The kinds of field sequences the builder distinguishes (StructKind):
always-sized, possibly-unsized last field, or laid out after a fixed-size
fixed-alignment region. -/
inductive StructKind where
  | AlwaysSized
  | MaybeUnsized
  | Prefixed (size : Nat) (align : Nat)
deriving DecidableEq, Repr

/-- Overlap eligibility and variant assignment for each saved local of a
coroutine (SavedLocalEligibility): not yet assigned, assigned to exactly
one resumption state, or ineligible for overlap (optionally carrying its
prefix slot index). -/
inductive SavedLocalEligibility where
  | Unassigned
  | Assigned (idx : Nat)
  | Ineligible (slot : Option Nat)
deriving DecidableEq, Repr

/-- The saved-state information of one coroutine, computed by the external
liveness analysis (GeneratorLayout): the type of every saved local, the
saved locals live in each resumption state, and the symmetric
storage-conflict relation meaning "simultaneously live, cannot share
storage".  Saved locals are identified by their index below
`fieldTys.length`; the conflict relation is modelled as the bit matrix's
characteristic function. -/
structure GeneratorLayoutInfo where
  fieldTys : List Ty
  variantFields : List (List Nat)
  storageConflicts : Nat → Nat → Bool

/-- The number of saved locals (`info.field_tys.len()`). -/
def GeneratorLayoutInfo.nLocals (info : GeneratorLayoutInfo) : Nat :=
  info.fieldTys.length

/-- The planner's mutable state: the ineligible-locals bit set and the
per-local eligibility vector, both indexed by saved-local id. -/
structure PlannerState where
  ineligible : Nat → Bool
  assignments : Nat → SavedLocalEligibility

/-- The state at the start of planning: no local is ineligible and every
local is Unassigned. -/
def initialPlannerState : PlannerState :=
  { ineligible := fun _ => false, assignments := fun _ => .Unassigned }

/-- Mark a local permanently ineligible for overlap: insert it into the
ineligible set and record `Ineligible(None)` in the eligibility vector
(the paired `ineligible_locals.insert` / `assignments[..] = Ineligible(None)`
operations of the source). -/
def demote (st : PlannerState) (l : Nat) : PlannerState :=
  { ineligible := Function.update st.ineligible l true,
    assignments := Function.update st.assignments l (.Ineligible none) }

/-- One step of the single-assignment pass: seeing local `l` live in state
`variantIdx`, assign it if unassigned, demote it if already assigned to a
state, leave it alone if already ineligible. -/
def assignLocal (variantIdx : Nat) (st : PlannerState) (l : Nat) : PlannerState :=
  match st.assignments l with
  | .Unassigned =>
    { st with assignments := Function.update st.assignments l (.Assigned variantIdx) }
  | .Assigned _ => demote st l
  | .Ineligible _ => st

/-- Pair each element of a list with its position, starting at `i`
(the `iter().enumerate()` / `iter_enumerated()` view). -/
def enumerateFrom : Nat → List α → List (Nat × α)
  | _, [] => []
  | i, a :: l => (i, a) :: enumerateFrom (i + 1) l

/-- Pass 1 of the planner: for each resumption state in order, process the
saved locals live in that state with `assignLocal`. -/
def pass1 (info : GeneratorLayoutInfo) (st : PlannerState) : PlannerState :=
  (enumerateFrom 0 info.variantFields).foldl
    (fun st p => p.2.foldl (assignLocal p.1) st) st

/-- The set bits of row `a` of the storage-conflict bit matrix, in
ascending order (`storage_conflicts.iter(local_a)`). -/
def conflictRowIter (info : GeneratorLayoutInfo) (a : Nat) : List Nat :=
  (List.range info.nLocals).filter (fun b => info.storageConflicts a b)

/-- The number of set bits of row `a` (`storage_conflicts.count(local_a)`). -/
def conflictCount (info : GeneratorLayoutInfo) (a : Nat) : Nat :=
  (conflictRowIter info a).length

/-- One step of the conflict pass for the pair `(a, b)`: skip if `b` is
already ineligible or both have equal eligibility entries; otherwise demote
whichever of the two participates in more conflicts (`a`'s count having
been taken at the start of its row). -/
def resolveConflict (info : GeneratorLayoutInfo) (conflictsA a : Nat)
    (st : PlannerState) (b : Nat) : PlannerState :=
  if st.ineligible b = true ∨ st.assignments a = st.assignments b then st
  else
    let conflictsB := conflictCount info b
    if conflictsA > conflictsB then demote st a else demote st b

/-- The conflict pass's treatment of one row `a`: record `a`'s conflict
count, skip the row if `a` is already ineligible, otherwise process every
conflicting `b` in the row. -/
def conflictRow (info : GeneratorLayoutInfo) (st : PlannerState) (a : Nat) : PlannerState :=
  let conflictsA := conflictCount info a
  if st.ineligible a = true then st
  else (conflictRowIter info a).foldl (resolveConflict info conflictsA a) st

/-- Pass 2 of the planner: process every row of the conflict matrix. -/
def pass2 (info : GeneratorLayoutInfo) (st : PlannerState) : PlannerState :=
  (List.range info.nLocals).foldl (conflictRow info) st

/-- The number of distinct resumption states that some local is assigned
to (the `used_variants` bit set's count): the states below the number of
variants for which some saved local's entry is `Assigned` to them. -/
def usedVariantsCount (info : GeneratorLayoutInfo) (st : PlannerState) : Nat :=
  ((List.range info.variantFields.length).filter
    (fun v => (List.range info.nLocals).any
      (fun l => decide (st.assignments l = .Assigned v)))).length

/-- Pass 3 of the planner, the degenerate collapse: when fewer than two
states are in use no overlap can save space, so every local is made
ineligible and the ineligible set is filled. -/
def pass3 (info : GeneratorLayoutInfo) (st : PlannerState) : PlannerState :=
  if usedVariantsCount info st < 2 then
    { ineligible := fun _ => true, assignments := fun _ => .Ineligible none }
  else st

/-- The ineligible locals in ascending order (`ineligible_locals.iter()`). -/
def ineligibleList (info : GeneratorLayoutInfo) (p : Nat → Bool) : List Nat :=
  (List.range info.nLocals).filter p

/-- One step of the slot-numbering pass: record prefix slot `p.1` for
local `p.2`. -/
def slotUpdate (asg : Nat → SavedLocalEligibility) (p : Nat × Nat) :
    Nat → SavedLocalEligibility :=
  Function.update asg p.2 (.Ineligible (some p.1))

/-- Pass 4 of the planner: number the ineligible locals consecutively in
ascending order, writing each slot index into its `Ineligible` entry. -/
def pass4 (info : GeneratorLayoutInfo) (st : PlannerState) : PlannerState :=
  { st with assignments :=
      (enumerateFrom 0 (ineligibleList info st.ineligible)).foldl slotUpdate st.assignments }

/-- The planner state after the single-assignment pass and the conflict
pass (the state inspected by the degenerate-collapse test). -/
def plannerAfterConflicts (info : GeneratorLayoutInfo) : PlannerState :=
  pass2 info (pass1 info initialPlannerState)

/-- Compute the eligibility and assignment of each saved local
(generator_saved_local_eligibility): the four passes in order, returning
the ineligible-locals set and the eligibility vector. -/
def generator_saved_local_eligibility (info : GeneratorLayoutInfo) :
    (Nat → Bool) × (Nat → SavedLocalEligibility) :=
  let st := pass4 info (pass3 info (plannerAfterConflicts info))
  (st.ineligible, st.assignments)

/-- The context threaded through every layout computation, packaging the
target data layout together with the external collaborators the source
reaches through `tcx` / `LayoutCx`: the fallible and the infallible
normalizer, the sizedness oracle, the unsized-tail computation, the
optional pointer-metadata lang item (as the projection type it induces),
the MaybeUninit wrapper, the memoized layout and alignment queries used
for sub-queries, the abi crate's union and struct-or-enum layout
calculators, and the liveness analysis's saved-state information. -/
structure LayoutCx where
  dl : DataLayout
  tryNormalize : Ty → Option Ty
  normalize : Ty → Ty
  isSized : Ty → Bool
  structTail : Ty → Ty
  metadataTyOf : Option (Ty → Ty)
  mkMaybeUninit : Ty → Ty
  layoutOf : Ty → Except LayoutError LayoutS
  alignOfRec : Ty → Except LayoutError AbiAndPrefAlign
  layoutOfUnionCalc : ReprOptions → List (List LayoutS) → Option LayoutS
  layoutOfStructOrEnumCalc : ReprOptions → List (List LayoutS) → Bool → Option LayoutS
  generatorLayout : Nat → Option GeneratorLayoutInfo

/-- Modelled from the spec: the external field-sequence layout calculator
(`LayoutCalculator::univariant` of the abi crate, not part of this file).
The aggregate alignment is the maximum of all field alignments with every
contribution capped by `pack` when present — a packed aggregate starts
from the one-byte alignment instead of the aggregate base, and a
`Prefixed` kind's prefix alignment is capped too, so the result never
exceeds the cap — and is raised to the forced `align` when present (the
two are mutually exclusive, rejected by the caller).  A `Prefixed` kind
anchors the fields after a region of the given size and alignment; the
size is the sum of the field sizes and the computation fails (size
overflow) when it exceeds the target's object-size bound. -/
def univariantCalc (dl : DataLayout) (fields : List LayoutS) (repr : ReprOptions)
    (kind : StructKind) : Option LayoutS :=
  let pack := repr.pack
  let cap := fun (a : AbiAndPrefAlign) =>
    match pack with
    | some p => (⟨Nat.min a.abi p, Nat.min a.pref p⟩ : AbiAndPrefAlign)
    | none => a
  let base0 : AbiAndPrefAlign := if pack.isSome then dl.i8Align else dl.aggregateAlign
  let base : AbiAndPrefAlign :=
    match kind with
    | .Prefixed _ palign => base0.max (cap ⟨palign, palign⟩)
    | _ => base0
  let fieldAlign := fields.foldl (fun acc f => acc.max (cap f.align)) base
  let finalAlign :=
    match repr.align with
    | some a => fieldAlign.max ⟨a, a⟩
    | none => fieldAlign
  let baseSize := match kind with | .Prefixed off _ => off | _ => 0
  let size := fields.foldl (fun s f => s + f.size) baseSize
  if size ≤ dl.objSizeBound then
    some { size := size, align := finalAlign, abi := .Aggregate, fieldsShape := .Arbitrary }
  else none

/-- Lay out a sequence of already-resolved fields (univariant_uninterned):
rejects `pack` and forced `align` used together ("struct cannot be packed
and aligned", a delayed bug followed by an Unknown failure), then defers
to the external calculator, mapping its overflow to SizeOverflow. -/
def univariant_uninterned (cx : LayoutCx) (ty : Ty) (fields : List LayoutS)
    (repr : ReprOptions) (kind : StructKind) : Except LayoutError LayoutS :=
  let pack := repr.pack
  if pack.isSome ∧ repr.align.isSome then .error (.Unknown ty)
  else
    match univariantCalc cx.dl fields repr kind with
    | some l => .ok l
    | none => .error (.SizeOverflow ty)

/-- Resolve the layouts of a list of field types through the external
layout query, propagating the first failure (the
`map layout_of ... collect::<Result<Vec<_>,_>>` idiom). -/
def layoutsOf (cx : LayoutCx) : List Ty → Except LayoutError (List LayoutS)
  | [] => .ok []
  | t :: ts =>
    match cx.layoutOf t with
    | .error e => .error e
    | .ok l =>
      match layoutsOf cx ts with
      | .error e => .error e
      | .ok ls => .ok (l :: ls)

/-- The coroutine layout assembler's per-variant filter on one local
(the match inside `variant_only_tys`): an Unassigned local and a local
assigned to a different state than the one being laid out are engine
faults; a local assigned to this state is kept; an ineligible local is
excluded. -/
def eligibleForVariant (asg : Nat → SavedLocalEligibility) (index l : Nat) :
    Outcome Bool :=
  match asg l with
  | .Unassigned => .fatal "unassigned saved local in variant"
  | .Assigned v => if v = index then .ok true else .fatal "assignment does not match variant"
  | .Ineligible _ => .ok false

/-- The locals of one resumption state that are included in that state's
overlay layout: the state's live locals filtered by `eligibleForVariant`. -/
def variantOnlyLocals (asg : Nat → SavedLocalEligibility) (index : Nat) :
    List Nat → Outcome (List Nat)
  | [] => .ok []
  | l :: rest =>
    match eligibleForVariant asg index l with
    | .ok true =>
      match variantOnlyLocals asg index rest with
      | .ok ls => .ok (l :: ls)
      | other => other
    | .ok false => variantOnlyLocals asg index rest
    | .err e => .err e
    | .fatal m => .fatal m

/-- Compute the full coroutine layout's alignment (generator_align): fetch
the saved-state information (an Unknown failure when the liveness
collaborator has none), run the overlap planner, build the resumption-state
tag, lay out the prefix (captured upvars, then the tag, then every
ineligible local wrapped as possibly-uninitialized), then lay out one
overlay per resumption state containing only that state's assigned locals,
folding all alignments into a single maximum. -/
def generator_align (cx : LayoutCx) (ty : Ty) (defId : Nat) (prefixTys : List Ty) :
    Outcome AbiAndPrefAlign :=
  match cx.generatorLayout defId with
  | none => .err (.Unknown ty)
  | some info =>
    let pr := generator_saved_local_eligibility info
    let ineligible_locals := pr.1
    let assignments := pr.2
    let maxDiscr := info.variantFields.length - 1
    let discrInt := Integer.fitUnsigned maxDiscr
    let tagLayout := LayoutS.scalar cx.dl (.int discrInt false)
    let promotedTys := (ineligibleList info ineligible_locals).map
      (fun l => cx.mkMaybeUninit (info.fieldTys.getD l .tyError))
    match layoutsOf cx prefixTys with
    | .error e => .err e
    | .ok upvarLayouts =>
      match layoutsOf cx promotedTys with
      | .error e => .err e
      | .ok promotedLayouts =>
        let prefixFieldLayouts := upvarLayouts ++ [tagLayout] ++ promotedLayouts
        match univariant_uninterned cx ty prefixFieldLayouts ReprOptions.mkDefault
            .AlwaysSized with
        | .error e => .err e
        | .ok prefixLayout =>
          let prefixSize := prefixLayout.size
          let prefixAlign := prefixLayout.align
          (enumerateFrom 0 info.variantFields).foldl
            (fun acc p =>
              match acc with
              | .ok align =>
                match variantOnlyLocals assignments p.1 p.2 with
                | .ok locs =>
                  let variantTys := locs.map (fun l => info.fieldTys.getD l .tyError)
                  match layoutsOf cx variantTys with
                  | .error e => .err e
                  | .ok variantFieldLayouts =>
                    match univariant_uninterned cx ty variantFieldLayouts
                        ReprOptions.mkDefault (.Prefixed prefixSize prefixAlign.abi) with
                    | .error e => .err e
                    | .ok variantLayout => .ok (align.max variantLayout.align)
                | .err e => .err e
                | .fatal m => .fatal m
              | other => other)
            (.ok prefixLayout.align)

/-- The fixed maximum number of SIMD lanes a backend must support; the
source caps lengths at 2^16 (MAX_SIMD_LANES, imported from outside this
file; value taken from the source's comment). -/
def MAX_SIMD_LANES : Nat := 2 ^ 16

/-- Derive the element type and lane count of a SIMD vector from its first
field: from the element type and layout-reported count of a single
array-typed field (more than one field in this form is fatal, a missing
array field shape is Unknown), or from the homogeneous field type and the
number of fields. -/
def simdElementInfo (cx : LayoutCx) (ty f0Ty : Ty) (nFields : Nat) :
    Outcome (Ty × Nat) :=
  match f0Ty with
  | .array eTy _ =>
    if nFields ≠ 1 then .fatal "monomorphising SIMD type with more than one array field"
    else
      match cx.layoutOf f0Ty with
      | .error e => .err e
      | .ok f0Layout =>
        match f0Layout.fieldsShape with
        | .Array count => .ok (eTy, count)
        | _ => .err (.Unknown ty)
  | _ => .ok (f0Ty, nFields)

/-- Size multiplication guarded by the target's object-size bound
(Size::checked_mul). -/
def checkedMul (a b : Nat) (dl : DataLayout) : Option Nat :=
  if a * b ≤ dl.objSizeBound then some (a * b) else none

/-- The uncached alignment resolver (align_of_uncached): dispatch on the
type shape, resolve field alignments recursively through the external
queries, and combine them.  Fatal configuration errors abort the query
outright (`Outcome.fatal`); recoverable failures are propagated as
`Outcome.err`. -/
def align_of_uncached (cx : LayoutCx) (ty : Ty) : Outcome AbiAndPrefAlign :=
  let dl := cx.dl
  match ty with
  | .bool => .ok (Integer.I8.align dl)
  | .char => .ok (Integer.I32.align dl)
  | .int ity => .ok ((Integer.fromIntTy dl ity).align dl)
  | .uint uty => .ok ((Integer.fromUintTy dl uty).align dl)
  | .float fty =>
    .ok (match fty with
      | .f32 => dl.f32Align
      | .f64 => dl.f64Align)
  | .fnPtr => .ok dl.instrPtrAlign
  | .never => .ok dl.i8Align
  | .ref pointee0 | .rawPtr pointee0 =>
    let dataPtrAlign := dl.dataPtrAlign
    let pointee := cx.normalize pointee0
    if cx.isSized pointee then .ok dataPtrAlign
    else
      let unsizedPart := cx.structTail pointee
      let combine := fun (metadataAlign : AbiAndPrefAlign) =>
        Outcome.ok ((dataPtrAlign.max metadataAlign).max dl.aggregateAlign)
      match cx.metadataTyOf with
      | some mkMetadataTy =>
        let metadataTy := cx.normalize (mkMetadataTy pointee)
        match cx.layoutOf metadataTy with
        | .error e => .err e
        | .ok metadataLayout =>
          if metadataLayout.isZst && metadataLayout.align.abi == 1 then .ok dataPtrAlign
          else
            match metadataLayout.abi with
            | .Scalar metadata => combine (metadata.align dl)
            | _ => .err (.Unknown unsizedPart)
      | none =>
        match unsizedPart with
        | .foreign => .ok dataPtrAlign
        | .slice _ => combine (dl.ptrSizedInt.align dl)
        | .str => combine (dl.ptrSizedInt.align dl)
        | .dynamic => combine dataPtrAlign
        | _ => .err (.Unknown unsizedPart)
  | .dynStar =>
    let dataAlign := dl.ptrSizedInt.align dl
    let vtableAlign := dl.dataPtrAlign
    .ok ((dataAlign.max vtableAlign).max dl.aggregateAlign)
  | .array elem _ =>
    (match cx.alignOfRec elem with
      | .error e => .err e
      | .ok a => .ok a)
  | .slice elem =>
    (match cx.alignOfRec elem with
      | .error e => .err e
      | .ok a => .ok a)
  | .str => .ok dl.i8Align
  | .fnDef =>
    (match univariant_uninterned cx ty [] ReprOptions.mkDefault .AlwaysSized with
      | .error e => .err e
      | .ok l => .ok l.align)
  | .dynamic =>
    (match univariant_uninterned cx ty [] ReprOptions.mkDefault .AlwaysSized with
      | .error e => .err e
      | .ok l => .ok l.align)
  | .foreign =>
    (match univariant_uninterned cx ty [] ReprOptions.mkDefault .AlwaysSized with
      | .error e => .err e
      | .ok l => .ok l.align)
  | .generator defId prefixTys => generator_align cx ty defId prefixTys.toList
  | .closure upvarTys =>
    (match layoutsOf cx upvarTys.toList with
      | .error e => .err e
      | .ok fieldLayouts =>
        match univariant_uninterned cx ty fieldLayouts ReprOptions.mkDefault
            .AlwaysSized with
        | .error e => .err e
        | .ok l => .ok l.align)
  | .tuple elems =>
    let tys := elems.toList
    let kind := if tys.length == 0 then StructKind.AlwaysSized else StructKind.MaybeUnsized
    (match layoutsOf cx tys with
      | .error e => .err e
      | .ok fieldLayouts =>
        match univariant_uninterned cx ty fieldLayouts ReprOptions.mkDefault kind with
        | .error e => .err e
        | .ok l => .ok l.align)
  | .adt isStruct isUnion repr variants =>
    if repr.simd then
      -- SIMD vector types.
      if !isStruct then .err (.Unknown ty)
      else
        let fields0 := (variants.toList.headD .nil).toList
        if fields0.isEmpty then .fatal "monomorphising SIMD type of zero length"
        else
          let f0Ty := fields0.headD .tyError
          match fields0.find? (fun fi => decide (fi ≠ f0Ty)) with
          | some _ => .fatal "monomorphising heterogeneous SIMD type"
          | none =>
            match simdElementInfo cx ty f0Ty fields0.length with
            | .err e => .err e
            | .fatal m => .fatal m
            | .ok (eTy, eLen) =>
              if eLen = 0 then .fatal "monomorphising SIMD type of zero length"
              else if eLen > MAX_SIMD_LANES then
                .fatal "monomorphising SIMD type of excessive length"
              else
                match cx.layoutOf eTy with
                | .error e => .err e
                | .ok eLayout =>
                  match eLayout.abi with
                  | .Scalar _ =>
                    (match checkedMul eLayout.size eLen dl with
                      | none => .err (.SizeOverflow ty)
                      | some size => .ok (dl.vectorAlignFn size))
                  | _ =>
                    .fatal "monomorphising SIMD type with a non-primitive-scalar element type"
    else
      -- General ADTs.
      match (variants.toList.map TyList.toList).mapM (layoutsOf cx) with
      | .error e => .err e
      | .ok variantLayouts =>
        if isUnion then
          if repr.pack.isSome ∧ repr.align.isSome then .err (.Unknown ty)
          else
            match cx.layoutOfUnionCalc repr variantLayouts with
            | none => .err (.Unknown ty)
            | some l => .ok l.align
        else
          let isEnum := !isStruct && !isUnion
          match cx.layoutOfStructOrEnumCalc repr variantLayouts isEnum with
          | none => .err (.SizeOverflow ty)
          | some l => .ok l.align
  | .alias => .err (.Unknown ty)
  | .placeholder => .fatal "Layout::compute: unexpected type"
  | .generatorWitness => .fatal "Layout::compute: unexpected type"
  | .infer => .fatal "Layout::compute: unexpected type"
  | .bound => .err (.Unknown ty)
  | .param => .err (.Unknown ty)
  | .tyError => .err (.Unknown ty)

/-- The memoized alignment query (align_of), with the re-issued query on
the normalized type modelled as a fueled recursive call (the surrounding
query engine detects cycles; exhausting the fuel is its cycle fault).
Normalization failure is returned as a NormalizationFailure; when the
normalized type differs from the input the query is re-issued on the
normalized type instead of computing here. -/
def align_of : Nat → LayoutCx → Ty → Outcome AbiAndPrefAlign
  | 0, _, _ => .fatal "query cycle"
  | fuel + 1, cx, ty =>
    match cx.tryNormalize ty with
    | none => .err (.NormalizationFailure ty)
    | some t => if t ≠ ty then align_of fuel cx t else align_of_uncached cx ty

/-- The externally visible resolver entry point: the alignment query with
enough fuel for the one re-issue an idempotent normalizer can cause. -/
def resolve (cx : LayoutCx) (ty : Ty) : Outcome AbiAndPrefAlign :=
  align_of 2 cx ty

/-- A reference target modelled on x86_64-linux: the usual scalar
alignments, 8-byte pointers, and the default vector rule aligning a
vector to its total byte size. -/
def dlRef : DataLayout :=
  { i8Align := ⟨1, 1⟩
    i16Align := ⟨2, 2⟩
    i32Align := ⟨4, 4⟩
    i64Align := ⟨8, 8⟩
    i128Align := ⟨16, 16⟩
    f32Align := ⟨4, 4⟩
    f64Align := ⟨8, 8⟩
    dataPtrAlign := ⟨8, 8⟩
    instrPtrAlign := ⟨8, 8⟩
    aggregateAlign := ⟨1, 8⟩
    ptrSizedInt := .I64
    ptrSize := 8
    vectorAlignFn := fun size => ⟨size, size⟩
    objSizeBound := 2 ^ 61 }

/-- A small concrete layout oracle for the reference context: scalar
layouts for a few primitive types, the layout of a four-element i32 array
(with its array field shape), Unknown for the rest. -/
def layoutOfRef : Ty → Except LayoutError LayoutS
  | .bool => .ok (LayoutS.scalar dlRef (.int .I8 false))
  | .int .i32 => .ok (LayoutS.scalar dlRef (.int .I32 true))
  | .int .i64 => .ok (LayoutS.scalar dlRef (.int .I64 true))
  | .float .f32 => .ok (LayoutS.scalar dlRef .f32)
  | .array (.int .i32) 4 =>
    .ok { size := 16, align := ⟨4, 4⟩, abi := .Aggregate, fieldsShape := .Array 4 }
  | t => .error (.Unknown t)

/-- A concrete reference context over `dlRef`: the identity normalizer, a
structural sizedness oracle, no pointer-metadata lang item, and no
coroutine saved-state information. -/
def cxRef : LayoutCx :=
  { dl := dlRef
    tryNormalize := fun t => some t
    normalize := fun t => t
    isSized := fun t =>
      match t with
      | .slice _ => false
      | .str => false
      | .dynamic => false
      | .foreign => false
      | _ => true
    structTail := fun t => t
    metadataTyOf := none
    mkMaybeUninit := fun t => t
    layoutOf := layoutOfRef
    alignOfRec := fun t => .error (.Unknown t)
    layoutOfUnionCalc := fun _ _ => none
    layoutOfStructOrEnumCalc := fun _ _ _ => none
    generatorLayout := fun _ => none }

/-- A coroutine with two resumption states, three saved locals where
locals 0 and 1 are live in state 0, local 2 in state 1, and locals 0 and 1
conflict with each other. -/
def infoSameVariantConflict : GeneratorLayoutInfo :=
  { fieldTys := [.bool, .bool, .bool]
    variantFields := [[0, 1], [2]]
    storageConflicts := fun a b =>
      (a == 0 && b == 1) || (a == 1 && b == 0) }

/-- A coroutine with two resumption states and three saved locals, where
local 2 is live in no state at all. -/
def infoOrphanLocal : GeneratorLayoutInfo :=
  { fieldTys := [.bool, .bool, .bool]
    variantFields := [[0], [1]]
    storageConflicts := fun _ _ => false }

/-- A coroutine whose two saved locals are both live only in its single
resumption state. -/
def infoSingleState : GeneratorLayoutInfo :=
  { fieldTys := [.bool, .bool]
    variantFields := [[0, 1]]
    storageConflicts := fun _ _ => false }

/-- A coroutine with two resumption states where local 0 is live in both
states (hence ineligible) and locals 1 and 2 are live in one state each. -/
def infoPromotedLocal : GeneratorLayoutInfo :=
  { fieldTys := [.bool, .bool, .bool]
    variantFields := [[0, 1], [0, 2]]
    storageConflicts := fun _ _ => false }


/-- Basic fact: demoting a local marks exactly it ineligible. -/
theorem demote_ineligible_self (st : PlannerState) (l : Nat) :
    (demote st l).ineligible l = true := by
  simp [demote]

/-- Demotion never clears an ineligible bit. -/
theorem demote_ineligible_mono (st : PlannerState) (l x : Nat)
    (h : st.ineligible x = true) : (demote st l).ineligible x = true := by
  by_cases hx : x = l
  · subst hx; simp [demote]
  · simpa [demote, Function.update_noteq hx] using h

/-- The demoted local's eligibility entry becomes `Ineligible none`. -/
theorem demote_assignments_self (st : PlannerState) (l : Nat) :
    (demote st l).assignments l = .Ineligible none := by
  simp [demote]

/-- Demotion leaves other locals' eligibility entries unchanged. -/
theorem demote_assignments_other (st : PlannerState) (l x : Nat) (hx : x ≠ l) :
    (demote st l).assignments x = st.assignments x := by
  simp [demote, Function.update_noteq hx]

/-- The property maintained for a conflicting pair once its row step has
seen it: one side is ineligible or the two eligibility entries agree. -/
def pairOk (st : PlannerState) (a b : Nat) : Prop :=
  st.ineligible a = true ∨ st.ineligible b = true ∨ st.assignments a = st.assignments b

/-- `pairOk` survives any demotion. -/
theorem pairOk_demote (st : PlannerState) (a b r : Nat) (h : pairOk st a b) :
    pairOk (demote st r) a b := by
  rcases h with h | h | h
  · exact Or.inl (demote_ineligible_mono st r a h)
  · exact Or.inr (Or.inl (demote_ineligible_mono st r b h))
  · by_cases hra : a = r
    · subst hra; exact Or.inl (demote_ineligible_self st a)
    · by_cases hrb : b = r
      · subst hrb; exact Or.inr (Or.inl (demote_ineligible_self st b))
      · exact Or.inr (Or.inr (by
          rw [demote_assignments_other st r a hra, demote_assignments_other st r b hrb]
          exact h))

/-- A conflict-pass step either leaves the state alone or demotes one
local. -/
theorem resolveConflict_cases (info : GeneratorLayoutInfo) (ca a : Nat)
    (st : PlannerState) (b : Nat) :
    resolveConflict info ca a st b = st ∨
      ∃ r, resolveConflict info ca a st b = demote st r := by
  unfold resolveConflict
  split
  · exact Or.inl rfl
  · dsimp only
    split
    · exact Or.inr ⟨a, rfl⟩
    · exact Or.inr ⟨b, rfl⟩

/-- `pairOk` survives any conflict-pass step. -/
theorem pairOk_resolveConflict (info : GeneratorLayoutInfo) (ca a' : Nat)
    (st : PlannerState) (b' a b : Nat) (h : pairOk st a b) :
    pairOk (resolveConflict info ca a' st b') a b := by
  rcases resolveConflict_cases info ca a' st b' with heq | ⟨r, heq⟩
  · rw [heq]; exact h
  · rw [heq]; exact pairOk_demote st a b r h

/-- `pairOk` survives folding conflict-pass steps over any list. -/
theorem pairOk_foldl_resolve (info : GeneratorLayoutInfo) (ca a' : Nat)
    (l : List Nat) (st : PlannerState) (a b : Nat) (h : pairOk st a b) :
    pairOk (l.foldl (resolveConflict info ca a') st) a b := by
  induction l generalizing st with
  | nil => exact h
  | cons c rest ih =>
    rw [List.foldl_cons]
    exact ih _ (pairOk_resolveConflict info ca a' st c a b h)

/-- `pairOk` survives processing any conflict row. -/
theorem pairOk_conflictRow (info : GeneratorLayoutInfo) (st : PlannerState)
    (a' a b : Nat) (h : pairOk st a b) : pairOk (conflictRow info st a') a b := by
  unfold conflictRow
  dsimp only
  split
  · exact h
  · exact pairOk_foldl_resolve info _ a' _ st a b h

/-- `pairOk` survives folding conflict rows over any list of rows. -/
theorem pairOk_foldl_rows (info : GeneratorLayoutInfo) (rs : List Nat)
    (st : PlannerState) (a b : Nat) (h : pairOk st a b) :
    pairOk (rs.foldl (conflictRow info) st) a b := by
  induction rs generalizing st with
  | nil => exact h
  | cons r rest ih =>
    rw [List.foldl_cons]
    exact ih _ (pairOk_conflictRow info st r a b h)

/-- After the conflict-pass step for the pair `(a, b)` itself, `pairOk`
holds for that pair: the skip condition is exactly the property, and
otherwise one of the two is demoted. -/
theorem resolveConflict_establishes (info : GeneratorLayoutInfo) (ca a : Nat)
    (st : PlannerState) (b : Nat) : pairOk (resolveConflict info ca a st b) a b := by
  unfold resolveConflict
  split
  · rename_i h
    rcases h with h | h
    · exact Or.inr (Or.inl h)
    · exact Or.inr (Or.inr h)
  · dsimp only
    split
    · exact Or.inl (demote_ineligible_self st a)
    · exact Or.inr (Or.inl (demote_ineligible_self st b))

/-- After folding the conflict-pass steps of row `a` over a list
containing `b`, `pairOk` holds for `(a, b)`. -/
theorem foldl_resolve_establishes (info : GeneratorLayoutInfo) (ca a : Nat)
    (l : List Nat) (st : PlannerState) (b : Nat) (hb : b ∈ l) :
    pairOk (l.foldl (resolveConflict info ca a) st) a b := by
  induction l generalizing st with
  | nil => cases hb
  | cons c rest ih =>
    rw [List.foldl_cons]
    rcases List.mem_cons.mp hb with rfl | hb'
    · exact pairOk_foldl_resolve info ca a rest _ a b
        (resolveConflict_establishes info ca a st b)
    · exact ih _ hb'

/-- Processing row `a` establishes `pairOk` for every `b` conflicting
with `a`. -/
theorem conflictRow_establishes (info : GeneratorLayoutInfo) (st : PlannerState)
    (a b : Nat) (hb : b ∈ conflictRowIter info a) :
    pairOk (conflictRow info st a) a b := by
  unfold conflictRow
  dsimp only
  split
  · rename_i h; exact Or.inl h
  · exact foldl_resolve_establishes info _ a _ st b hb

/-- Folding the rows of any list containing `a` establishes `pairOk` for
every `b` conflicting with `a`. -/
theorem foldl_rows_establishes (info : GeneratorLayoutInfo) (rs : List Nat)
    (st : PlannerState) (a b : Nat) (ha : a ∈ rs) (hb : b ∈ conflictRowIter info a) :
    pairOk (rs.foldl (conflictRow info) st) a b := by
  induction rs generalizing st with
  | nil => cases ha
  | cons r rest ih =>
    rw [List.foldl_cons]
    rcases List.mem_cons.mp ha with rfl | ha'
    · exact pairOk_foldl_rows info rest _ a b (conflictRow_establishes info st a b hb)
    · exact ih _ ha'

/-- After the conflict pass, `pairOk` holds for every conflicting pair of
locals in range. -/
theorem pass2_pairOk (info : GeneratorLayoutInfo) (st : PlannerState) (a b : Nat)
    (ha : a < info.nLocals) (hb : b < info.nLocals)
    (hconf : info.storageConflicts a b = true) : pairOk (pass2 info st) a b := by
  unfold pass2
  exact foldl_rows_establishes info _ st a b (List.mem_range.mpr ha)
    (List.mem_filter.mpr ⟨List.mem_range.mpr hb, hconf⟩)

/-- The agreement invariant between the planner's two outputs: a local is
in the ineligible set exactly when its eligibility entry is `Ineligible`. -/
def stConsistent (st : PlannerState) : Prop :=
  ∀ x, st.ineligible x = true ↔ ∃ o, st.assignments x = .Ineligible o

/-- The initial planner state is consistent. -/
theorem stConsistent_init : stConsistent initialPlannerState := by
  intro x
  simp [initialPlannerState]

/-- Demotion keeps the two outputs in agreement. -/
theorem stConsistent_demote (st : PlannerState) (l : Nat) (h : stConsistent st) :
    stConsistent (demote st l) := by
  intro x
  by_cases hx : x = l
  · subst hx
    constructor
    · intro _; exact ⟨none, demote_assignments_self st x⟩
    · intro _; exact demote_ineligible_self st x
  · rw [show (demote st l).ineligible x = st.ineligible x by
        simp [demote, Function.update_noteq hx],
      demote_assignments_other st l x hx]
    exact h x

/-- A single-assignment step keeps the two outputs in agreement. -/
theorem stConsistent_assignLocal (v : Nat) (st : PlannerState) (l : Nat)
    (h : stConsistent st) : stConsistent (assignLocal v st l) := by
  unfold assignLocal
  cases hA : st.assignments l with
  | Unassigned =>
    intro x
    dsimp only
    by_cases hx : x = l
    · subst hx
      rw [Function.update_same]
      constructor
      · intro hin
        obtain ⟨o, ho⟩ := (h x).mp hin
        rw [hA] at ho
        cases ho
      · rintro ⟨o, ho⟩
        cases ho
    · rw [Function.update_noteq hx]
      exact h x
  | Assigned w => exact stConsistent_demote st l h
  | Ineligible o => exact h

/-- A conflict-pass step keeps the two outputs in agreement. -/
theorem stConsistent_resolveConflict (info : GeneratorLayoutInfo) (ca a : Nat)
    (st : PlannerState) (b : Nat) (h : stConsistent st) :
    stConsistent (resolveConflict info ca a st b) := by
  rcases resolveConflict_cases info ca a st b with heq | ⟨r, heq⟩
  · rw [heq]; exact h
  · rw [heq]; exact stConsistent_demote st r h

/-- Folding conflict-pass steps keeps the two outputs in agreement. -/
theorem stConsistent_foldl_resolve (info : GeneratorLayoutInfo) (ca a : Nat)
    (l : List Nat) (st : PlannerState) (h : stConsistent st) :
    stConsistent (l.foldl (resolveConflict info ca a) st) := by
  induction l generalizing st with
  | nil => exact h
  | cons c rest ih =>
    rw [List.foldl_cons]
    exact ih _ (stConsistent_resolveConflict info ca a st c h)

/-- Processing a conflict row keeps the two outputs in agreement. -/
theorem stConsistent_conflictRow (info : GeneratorLayoutInfo) (st : PlannerState)
    (a : Nat) (h : stConsistent st) : stConsistent (conflictRow info st a) := by
  unfold conflictRow
  dsimp only
  split
  · exact h
  · exact stConsistent_foldl_resolve info _ a _ st h

/-- The conflict pass keeps the two outputs in agreement. -/
theorem stConsistent_pass2 (info : GeneratorLayoutInfo) (st : PlannerState)
    (h : stConsistent st) : stConsistent (pass2 info st) := by
  unfold pass2
  generalize List.range info.nLocals = rs
  induction rs generalizing st with
  | nil => exact h
  | cons r rest ih =>
    rw [List.foldl_cons]
    exact ih _ (stConsistent_conflictRow info st r h)

/-- Folding single-assignment steps keeps the two outputs in agreement. -/
theorem stConsistent_foldl_assign (v : Nat) (fs : List Nat) (st : PlannerState)
    (h : stConsistent st) : stConsistent (fs.foldl (assignLocal v) st) := by
  induction fs generalizing st with
  | nil => exact h
  | cons c rest ih =>
    rw [List.foldl_cons]
    exact ih _ (stConsistent_assignLocal v st c h)

/-- The single-assignment pass keeps the two outputs in agreement. -/
theorem stConsistent_pass1 (info : GeneratorLayoutInfo) (st : PlannerState)
    (h : stConsistent st) : stConsistent (pass1 info st) := by
  unfold pass1
  generalize enumerateFrom 0 info.variantFields = ps
  induction ps generalizing st with
  | nil => exact h
  | cons p rest ih =>
    rw [List.foldl_cons]
    exact ih _ (stConsistent_foldl_assign p.1 p.2 st h)

/-- The degenerate collapse keeps the two outputs in agreement. -/
theorem stConsistent_pass3 (info : GeneratorLayoutInfo) (st : PlannerState)
    (h : stConsistent st) : stConsistent (pass3 info st) := by
  unfold pass3
  split
  · intro x
    constructor
    · intro _; exact ⟨none, rfl⟩
    · intro _; rfl
  · exact h

/-- The planner state after passes 1 and 2 is consistent. -/
theorem stConsistent_afterConflicts (info : GeneratorLayoutInfo) :
    stConsistent (plannerAfterConflicts info) :=
  stConsistent_pass2 info _ (stConsistent_pass1 info _ stConsistent_init)

/-- The planner state after passes 1, 2 and 3 is consistent. -/
theorem stConsistent_beforeSlots (info : GeneratorLayoutInfo) :
    stConsistent (pass3 info (plannerAfterConflicts info)) :=
  stConsistent_pass3 info _ (stConsistent_afterConflicts info)

/-- Demotion never introduces `Unassigned`. -/
theorem demote_notUnassigned (st : PlannerState) (r l : Nat)
    (h : st.assignments l ≠ .Unassigned) :
    (demote st r).assignments l ≠ .Unassigned := by
  by_cases hx : l = r
  · subst hx
    rw [demote_assignments_self st l]
    simp
  · rw [demote_assignments_other st r l hx]
    exact h

/-- A single-assignment step never introduces `Unassigned`. -/
theorem assignLocal_notUnassigned (v : Nat) (st : PlannerState) (r l : Nat)
    (h : st.assignments l ≠ .Unassigned) :
    (assignLocal v st r).assignments l ≠ .Unassigned := by
  unfold assignLocal
  cases hA : st.assignments r with
  | Unassigned =>
    dsimp only
    by_cases hx : l = r
    · subst hx
      rw [Function.update_same]
      simp
    · rw [Function.update_noteq hx]
      exact h
  | Assigned w => exact demote_notUnassigned st r l h
  | Ineligible o => exact h

/-- After its own single-assignment step, a local is no longer
`Unassigned`. -/
theorem assignLocal_self_notUnassigned (v : Nat) (st : PlannerState) (l : Nat) :
    (assignLocal v st l).assignments l ≠ .Unassigned := by
  unfold assignLocal
  cases hA : st.assignments l with
  | Unassigned =>
    dsimp only
    rw [Function.update_same]
    simp
  | Assigned w =>
    rw [demote_assignments_self st l]
    simp
  | Ineligible o =>
    rw [hA]
    simp

/-- Folding single-assignment steps never introduces `Unassigned`. -/
theorem foldl_assign_notUnassigned (v : Nat) (fs : List Nat) (st : PlannerState)
    (l : Nat) (h : st.assignments l ≠ .Unassigned) :
    ((fs.foldl (assignLocal v) st).assignments l ≠ .Unassigned) := by
  induction fs generalizing st with
  | nil => exact h
  | cons c rest ih =>
    rw [List.foldl_cons]
    exact ih _ (assignLocal_notUnassigned v st c l h)

/-- Folding the single-assignment steps of a state whose live-local list
contains `l` leaves `l` not `Unassigned`. -/
theorem foldl_assign_establishes (v : Nat) (fs : List Nat) (st : PlannerState)
    (l : Nat) (hmem : l ∈ fs) :
    ((fs.foldl (assignLocal v) st).assignments l ≠ .Unassigned) := by
  induction fs generalizing st with
  | nil => cases hmem
  | cons c rest ih =>
    rw [List.foldl_cons]
    rcases List.mem_cons.mp hmem with rfl | hmem'
    · exact foldl_assign_notUnassigned v rest _ l (assignLocal_self_notUnassigned v st l)
    · exact ih _ hmem'

/-- Any element of a list appears, with some position, in its enumerated
form. -/
theorem mem_enumerateFrom_of_mem {α : Type} {a : α} :
    ∀ (l : List α) (n : Nat), a ∈ l → ∃ i, (i, a) ∈ enumerateFrom n l := by
  intro l
  induction l with
  | nil => intro n h; cases h
  | cons c rest ih =>
    intro n h
    rcases List.mem_cons.mp h with rfl | h'
    · exact ⟨n, List.mem_cons_self _ _⟩
    · obtain ⟨i, hi⟩ := ih (n + 1) h'
      exact ⟨i, List.mem_cons_of_mem _ hi⟩

/-- Folding whole variant field lists never introduces `Unassigned`. -/
theorem foldl_variants_notUnassigned (ps : List (Nat × List Nat)) (st : PlannerState)
    (l : Nat) (h : st.assignments l ≠ .Unassigned) :
    ((ps.foldl (fun st p => p.2.foldl (assignLocal p.1) st) st).assignments l
      ≠ .Unassigned) := by
  induction ps generalizing st with
  | nil => exact h
  | cons p rest ih =>
    rw [List.foldl_cons]
    exact ih _ (foldl_assign_notUnassigned p.1 p.2 st l h)

/-- Folding variant field lists one of which contains `l` leaves `l` not
`Unassigned`. -/
theorem foldl_variants_establishes (ps : List (Nat × List Nat)) (st : PlannerState)
    (l : Nat) (h : ∃ p ∈ ps, l ∈ p.2) :
    ((ps.foldl (fun st p => p.2.foldl (assignLocal p.1) st) st).assignments l
      ≠ .Unassigned) := by
  induction ps generalizing st with
  | nil => obtain ⟨p, hp, _⟩ := h; cases hp
  | cons p rest ih =>
    rw [List.foldl_cons]
    obtain ⟨q, hq, hlq⟩ := h
    rcases List.mem_cons.mp hq with rfl | hq'
    · exact foldl_variants_notUnassigned rest _ l (foldl_assign_establishes q.1 q.2 st l hlq)
    · exact ih _ ⟨q, hq', hlq⟩

/-- After the single-assignment pass, every local live in some state is no
longer `Unassigned`. -/
theorem pass1_notUnassigned (info : GeneratorLayoutInfo) (st : PlannerState)
    (l : Nat) (h : ∃ fs ∈ info.variantFields, l ∈ fs) :
    (pass1 info st).assignments l ≠ .Unassigned := by
  unfold pass1
  obtain ⟨fs, hfs, hlfs⟩ := h
  obtain ⟨i, hi⟩ := mem_enumerateFrom_of_mem info.variantFields 0 hfs
  exact foldl_variants_establishes _ st l ⟨(i, fs), hi, hlfs⟩

/-- A conflict-pass step never introduces `Unassigned`. -/
theorem resolveConflict_notUnassigned (info : GeneratorLayoutInfo) (ca a : Nat)
    (st : PlannerState) (b l : Nat) (h : st.assignments l ≠ .Unassigned) :
    (resolveConflict info ca a st b).assignments l ≠ .Unassigned := by
  rcases resolveConflict_cases info ca a st b with heq | ⟨r, heq⟩
  · rw [heq]; exact h
  · rw [heq]; exact demote_notUnassigned st r l h

/-- Folding conflict-pass steps never introduces `Unassigned`. -/
theorem foldl_resolve_notUnassigned (info : GeneratorLayoutInfo) (ca a : Nat)
    (bs : List Nat) (st : PlannerState) (l : Nat)
    (h : st.assignments l ≠ .Unassigned) :
    ((bs.foldl (resolveConflict info ca a) st).assignments l ≠ .Unassigned) := by
  induction bs generalizing st with
  | nil => exact h
  | cons b brest ih =>
    rw [List.foldl_cons]
    exact ih _ (resolveConflict_notUnassigned info ca a st b l h)

/-- Processing a conflict row never introduces `Unassigned`. -/
theorem conflictRow_notUnassigned (info : GeneratorLayoutInfo) (st : PlannerState)
    (a l : Nat) (h : st.assignments l ≠ .Unassigned) :
    (conflictRow info st a).assignments l ≠ .Unassigned := by
  unfold conflictRow
  dsimp only
  split
  · exact h
  · exact foldl_resolve_notUnassigned info _ a _ st l h

/-- The conflict pass never introduces `Unassigned`. -/
theorem pass2_notUnassigned (info : GeneratorLayoutInfo) (st : PlannerState)
    (l : Nat) (h : st.assignments l ≠ .Unassigned) :
    (pass2 info st).assignments l ≠ .Unassigned := by
  unfold pass2
  generalize List.range info.nLocals = rs
  induction rs generalizing st with
  | nil => exact h
  | cons r rest ih =>
    rw [List.foldl_cons]
    exact ih _ (conflictRow_notUnassigned info st r l h)

/-- Enumeration distributes over list append, shifting the start index. -/
theorem enumerateFrom_append {α : Type} :
    ∀ (l1 : List α) (i : Nat) (l2 : List α),
      enumerateFrom i (l1 ++ l2) = enumerateFrom i l1 ++ enumerateFrom (i + l1.length) l2
  | [], i, l2 => by simp [enumerateFrom]
  | a :: l1, i, l2 => by
    rw [List.cons_append]
    show (i, a) :: enumerateFrom (i + 1) (l1 ++ l2) = _
    rw [enumerateFrom_append l1 (i + 1) l2]
    simp [enumerateFrom, List.length_cons]
    rw [show i + (l1.length + 1) = i + 1 + l1.length by omega]

/-- The element of an enumerated pair belongs to the underlying list. -/
theorem snd_mem_of_mem_enumerateFrom {α : Type} {p : Nat × α} :
    ∀ (l : List α) (i : Nat), p ∈ enumerateFrom i l → p.2 ∈ l := by
  intro l
  induction l with
  | nil => intro i h; cases h
  | cons a rest ih =>
    intro i h
    rcases List.mem_cons.mp h with rfl | h'
    · exact List.mem_cons_self _ _
    · exact List.mem_cons_of_mem _ (ih (i + 1) h')

/-- The slot-numbering fold leaves a local untouched when it is the target
of no step. -/
theorem foldl_slots_not_mem (ps : List (Nat × Nat))
    (asg : Nat → SavedLocalEligibility) (x : Nat) (h : ∀ p ∈ ps, p.2 ≠ x) :
    (ps.foldl slotUpdate asg) x = asg x := by
  induction ps generalizing asg with
  | nil => rfl
  | cons p rest ih =>
    rw [List.foldl_cons]
    rw [ih _ (fun q hq => h q (List.mem_cons_of_mem _ hq))]
    exact Function.update_noteq (fun hx => h p (List.mem_cons_self _ _) hx.symm) _ _

/-- Every value produced by the slot-numbering fold is either the original
entry or an `Ineligible` entry carrying a slot. -/
theorem foldl_slots_shape (ps : List (Nat × Nat))
    (asg : Nat → SavedLocalEligibility) (x : Nat) :
    (ps.foldl slotUpdate asg) x = asg x ∨
      ∃ k, (ps.foldl slotUpdate asg) x = .Ineligible (some k) := by
  induction ps generalizing asg with
  | nil => exact Or.inl rfl
  | cons p rest ih =>
    rw [List.foldl_cons]
    rcases ih (slotUpdate asg p) with h | ⟨k, h⟩
    · rw [h]
      by_cases hx : x = p.2
      · subst hx
        exact Or.inr ⟨p.1, Function.update_same _ _ _⟩
      · exact Or.inl (Function.update_noteq hx _ _)
    · exact Or.inr ⟨k, h⟩

/-- The slot-numbering fold writes slot `i + |L1|` into a local that
appears after exactly the `L1` part of the enumerated list and nowhere
else. -/
theorem foldl_slots_at (i : Nat) (L1 L2 : List Nat) (x : Nat)
    (h2 : x ∉ L2) (asg : Nat → SavedLocalEligibility) :
    ((enumerateFrom i (L1 ++ x :: L2)).foldl slotUpdate asg) x =
      .Ineligible (some (i + L1.length)) := by
  rw [enumerateFrom_append, List.foldl_append]
  show ((((i + L1.length), x) :: enumerateFrom (i + L1.length + 1) L2).foldl slotUpdate
    (List.foldl slotUpdate asg (enumerateFrom i L1))) x = _
  rw [List.foldl_cons]
  rw [foldl_slots_not_mem _ _ x
    (fun p hp hpx => h2 (hpx ▸ snd_mem_of_mem_enumerateFrom L2 _ hp))]
  exact Function.update_same _ _ _

/-- Splitting a filtered range at a member `x`: the part before `x` is the
filtered range below `x`, and `x` occurs in neither part. -/
theorem filter_range_decomp (p : Nat → Bool) (n x : Nat) (hx : x < n)
    (hpx : p x = true) :
    ∃ L2, (List.range n).filter p = (List.range x).filter p ++ x :: L2 ∧
      x ∉ (List.range x).filter p ∧ x ∉ L2 := by
  have hn : n = (x + 1) + (n - x - 1) := by omega
  rw [hn, List.range_add, List.range_succ]
  refine ⟨(((List.range (n - x - 1)).map (fun k => (x + 1) + k)).filter p), ?_, ?_, ?_⟩
  · rw [List.filter_append, List.filter_append]
    simp [hpx]
  · intro h
    have := List.mem_range.mp (List.mem_filter.mp h).1
    omega
  · intro h
    obtain ⟨k, _, hk⟩ := List.mem_map.mp (List.mem_filter.mp h).1
    omega

/-- The planner's returned ineligible set is the one standing after the
degenerate collapse; the slot-numbering pass does not change it. -/
theorem plan_fst (info : GeneratorLayoutInfo) :
    (generator_saved_local_eligibility info).1 =
      (pass3 info (plannerAfterConflicts info)).ineligible := rfl

/-- The planner's returned eligibility vector is the slot-numbering fold
applied to the state standing after the degenerate collapse. -/
theorem plan_snd (info : GeneratorLayoutInfo) :
    (generator_saved_local_eligibility info).2 =
      (enumerateFrom 0
        (ineligibleList info (pass3 info (plannerAfterConflicts info)).ineligible)).foldl
        slotUpdate (pass3 info (plannerAfterConflicts info)).assignments := rfl

/-- C1 (counterexample): the claim "no two distinct conflicting locals are
both AssignedTo the same resumption state" fails on the code: in a
coroutine where locals 0 and 1 conflict but are both live only in state 0,
the planner leaves both assigned to state 0. -/
theorem same_variant_conflict_cex :
    infoSameVariantConflict.storageConflicts 0 1 = true ∧ (0 : Nat) ≠ 1 ∧
    (generator_saved_local_eligibility infoSameVariantConflict).2 0 = .Assigned 0 ∧
    (generator_saved_local_eligibility infoSameVariantConflict).2 1 = .Assigned 0 := by
  decide

/-- C1 (amended): the coroutine overlap planner never leaves two
conflicting saved locals assigned to two different resumption states:
whenever two conflicting locals both end `AssignedTo`, they are assigned
to the same state (conflicting locals in the same state are laid out side
by side inside that state's overlay, not overlapped). -/
theorem planner_no_cross_variant_conflict (info : GeneratorLayoutInfo)
    (a b v w : Nat) (ha : a < info.nLocals) (hb : b < info.nLocals)
    (hconf : info.storageConflicts a b = true)
    (hA : (generator_saved_local_eligibility info).2 a = .Assigned v)
    (hB : (generator_saved_local_eligibility info).2 b = .Assigned w) : v = w := by
  rw [plan_snd] at hA hB
  have hA3 : (pass3 info (plannerAfterConflicts info)).assignments a = .Assigned v := by
    rcases foldl_slots_shape _ _ a with h | ⟨k, h⟩
    · rw [h] at hA; exact hA
    · rw [h] at hA; cases hA
  have hB3 : (pass3 info (plannerAfterConflicts info)).assignments b = .Assigned w := by
    rcases foldl_slots_shape _ _ b with h | ⟨k, h⟩
    · rw [h] at hB; exact hB
    · rw [h] at hB; cases hB
  by_cases hc : usedVariantsCount info (plannerAfterConflicts info) < 2
  · unfold pass3 at hA3
    rw [if_pos hc] at hA3
    cases hA3
  · unfold pass3 at hA3 hB3
    rw [if_neg hc] at hA3 hB3
    have hpair : pairOk (plannerAfterConflicts info) a b :=
      pass2_pairOk info (pass1 info initialPlannerState) a b ha hb hconf
    have hcons := stConsistent_afterConflicts info
    rcases hpair with h | h | h
    · obtain ⟨o, ho⟩ := (hcons a).mp h
      rw [hA3] at ho
      cases ho
    · obtain ⟨o, ho⟩ := (hcons b).mp h
      rw [hB3] at ho
      cases ho
    · rw [hA3, hB3] at h
      injection h

/-- C1 (witness): applied at the counterexample coroutine, where locals 0
and 1 conflict and both end assigned, so their states must agree. -/
theorem planner_no_cross_variant_conflict_witness :
    infoSameVariantConflict.storageConflicts 0 1 = true ∧ (0 : Nat) = 0 :=
  ⟨by decide, planner_no_cross_variant_conflict infoSameVariantConflict 0 1 0 0
    (by decide) (by decide) (by decide) (by decide) (by decide)⟩

/-- C2 (counterexample): the claim "no saved local remains Unassigned"
fails on the code for a coroutine with two used resumption states and a
saved local live in neither: that local stays `Unassigned` after
planning. -/
theorem planner_unassigned_cex :
    2 < infoOrphanLocal.nLocals ∧
    (generator_saved_local_eligibility infoOrphanLocal).2 2 = .Unassigned := by
  decide

/-- C2 (amended): for every coroutine whose saved locals each appear in at
least one resumption state's live set, planning leaves no local
`Unassigned`: every local ends `AssignedTo` one state or `Ineligible`. -/
theorem planner_no_unassigned (info : GeneratorLayoutInfo)
    (hcover : ∀ l, l < info.nLocals → ∃ fs ∈ info.variantFields, l ∈ fs)
    (l : Nat) (hl : l < info.nLocals) :
    (generator_saved_local_eligibility info).2 l ≠ .Unassigned := by
  rw [plan_snd]
  intro hfin
  have h3 : (pass3 info (plannerAfterConflicts info)).assignments l = .Unassigned := by
    rcases foldl_slots_shape _ _ l with h | ⟨k, h⟩
    · rw [h] at hfin; exact hfin
    · rw [h] at hfin; cases hfin
  by_cases hc : usedVariantsCount info (plannerAfterConflicts info) < 2
  · unfold pass3 at h3
    rw [if_pos hc] at h3
    cases h3
  · unfold pass3 at h3
    rw [if_neg hc] at h3
    exact pass2_notUnassigned info _ l
      (pass1_notUnassigned info initialPlannerState l (hcover l hl)) h3

/-- C2 (witness): applied at a coroutine whose two locals are both live in
its single state, the first local does not end `Unassigned`. -/
theorem planner_no_unassigned_witness :
    0 < infoSingleState.nLocals ∧
    (generator_saved_local_eligibility infoSingleState).2 0 ≠ .Unassigned :=
  ⟨by decide, planner_no_unassigned infoSingleState (by decide) 0 (by decide)⟩

/-- When every local's final entry is `Ineligible`, every per-state
overlay field list is empty. -/
theorem variantOnlyLocals_allIneligible (asg : Nat → SavedLocalEligibility)
    (h : ∀ l, ∃ o, asg l = .Ineligible o) (index : Nat) :
    ∀ fields, variantOnlyLocals asg index fields = .ok [] := by
  intro fields
  induction fields with
  | nil => rfl
  | cons l rest ih =>
    obtain ⟨o, ho⟩ := h l
    simp only [variantOnlyLocals, eligibleForVariant, ho]
    exact ih

/-- C3: when fewer than two distinct resumption states still have any
assigned local after the single-assignment pass and the conflict pass, the
planner forces every saved local to `Ineligible`, and every per-state
overlay of the resulting coroutine layout contains no fields beyond the
prefix. -/
theorem planner_degenerate_collapse (info : GeneratorLayoutInfo)
    (h : usedVariantsCount info (plannerAfterConflicts info) < 2) :
    (∀ x, ∃ o, (generator_saved_local_eligibility info).2 x = .Ineligible o) ∧
    (∀ index fields,
      variantOnlyLocals (generator_saved_local_eligibility info).2 index fields = .ok []) := by
  have hx : ∀ x, ∃ o, (generator_saved_local_eligibility info).2 x = .Ineligible o := by
    intro x
    rw [plan_snd]
    have hcoll : pass3 info (plannerAfterConflicts info) =
        { ineligible := fun _ => true, assignments := fun _ => .Ineligible none } := by
      unfold pass3
      rw [if_pos h]
    rw [hcoll]
    rcases foldl_slots_shape _ _ x with h' | ⟨k, h'⟩
    · exact ⟨none, h'⟩
    · exact ⟨some k, h'⟩
  exact ⟨hx, fun index fields => variantOnlyLocals_allIneligible _ hx index fields⟩

/-- C3 (witness): applied at a coroutine with a single resumption state,
whose overlay for state 0 comes out empty. -/
theorem planner_degenerate_collapse_witness :
    usedVariantsCount infoSingleState (plannerAfterConflicts infoSingleState) < 2 ∧
    variantOnlyLocals (generator_saved_local_eligibility infoSingleState).2 0 [0, 1] =
      .ok [] :=
  ⟨by decide, (planner_degenerate_collapse infoSingleState (by decide)).2 0 [0, 1]⟩

/-- C9: the planner's two outputs agree: a local is in the returned
ineligible set exactly when its returned eligibility entry is
`Ineligible`, and every ineligible local's entry carries the prefix slot
equal to the number of ineligible locals with smaller id (consecutive
numbering from 0 in ascending local-id order). -/
theorem planner_outputs_agree (info : GeneratorLayoutInfo) (l : Nat)
    (hl : l < info.nLocals) :
    ((generator_saved_local_eligibility info).1 l = true ↔
      ∃ o, (generator_saved_local_eligibility info).2 l = .Ineligible o) ∧
    ((generator_saved_local_eligibility info).1 l = true →
      (generator_saved_local_eligibility info).2 l =
        .Ineligible (some (((List.range l).filter
          (generator_saved_local_eligibility info).1).length))) := by
  rw [plan_fst, plan_snd]
  have hcons := stConsistent_beforeSlots info
  have hslot : (pass3 info (plannerAfterConflicts info)).ineligible l = true →
      ((enumerateFrom 0
          (ineligibleList info (pass3 info (plannerAfterConflicts info)).ineligible)).foldl
        slotUpdate (pass3 info (plannerAfterConflicts info)).assignments) l =
        .Ineligible (some (((List.range l).filter
          (pass3 info (plannerAfterConflicts info)).ineligible).length)) := by
    intro hin
    obtain ⟨L2, hdec, h1, h2⟩ := filter_range_decomp _ info.nLocals l hl hin
    unfold ineligibleList
    rw [hdec]
    rw [foldl_slots_at 0 _ L2 l h2 _]
    norm_num
  refine ⟨⟨fun hin => ⟨_, hslot hin⟩, ?_⟩, hslot⟩
  rintro ⟨o, ho⟩
  by_contra hni
  have hnf : (pass3 info (plannerAfterConflicts info)).ineligible l = false := by
    cases hh : (pass3 info (plannerAfterConflicts info)).ineligible l
    · rfl
    · exact absurd hh hni
  have hnotmem : ∀ p ∈ enumerateFrom 0
      (ineligibleList info (pass3 info (plannerAfterConflicts info)).ineligible),
      p.2 ≠ l := by
    intro p hp hpl
    have hmem := snd_mem_of_mem_enumerateFrom _ _ hp
    rw [hpl] at hmem
    have hfil := (List.mem_filter.mp hmem).2
    rw [hnf] at hfil
    cases hfil
  rw [foldl_slots_not_mem _ _ l hnotmem] at ho
  have hin := (hcons l).mpr ⟨o, ho⟩
  rw [hnf] at hin
  cases hin

/-- C9 (witness): applied at a coroutine whose local 0 is promoted: it is
in the ineligible set and carries prefix slot 0. -/
theorem planner_outputs_agree_witness :
    ((generator_saved_local_eligibility infoPromotedLocal).1 0 = true ↔
      ∃ o, (generator_saved_local_eligibility infoPromotedLocal).2 0 = .Ineligible o) ∧
    ((generator_saved_local_eligibility infoPromotedLocal).1 0 = true →
      (generator_saved_local_eligibility infoPromotedLocal).2 0 =
        .Ineligible (some (((List.range 0).filter
          (generator_saved_local_eligibility infoPromotedLocal).1).length))) :=
  planner_outputs_agree infoPromotedLocal 0 (by decide)

/-- C4: the field-sequence layout builder terminates with the
cannot-pack-and-align configuration error whenever both a packing cap and
a forced alignment are present, for every field list and kind; it never
computes an alignment in that situation. -/
theorem pack_and_align_rejected (cx : LayoutCx) (ty : Ty) (fields : List LayoutS)
    (repr : ReprOptions) (kind : StructKind)
    (hp : repr.pack.isSome = true) (ha : repr.align.isSome = true) :
    univariant_uninterned cx ty fields repr kind = .error (.Unknown ty) := by
  simp [univariant_uninterned, hp, ha]

/-- C4 (witness): the builder applied to `pack = 4` with forced
`align = 16` on the reference context. -/
theorem pack_and_align_rejected_witness :
    (⟨some 4, some 16, false, false⟩ : ReprOptions).pack.isSome = true ∧
    univariant_uninterned cxRef .bool [] ⟨some 4, some 16, false, false⟩ .AlwaysSized =
      .error (.Unknown .bool) :=
  ⟨rfl, pack_and_align_rejected cxRef .bool [] ⟨some 4, some 16, false, false⟩
    .AlwaysSized rfl rfl⟩

/-- C5: for every reference or raw-pointer type whose (normalized) pointee
the sizedness oracle reports as statically sized, the resolver returns
exactly the architecture data-pointer alignment, with no metadata
contribution, regardless of the pointee. -/
theorem thin_ptr_align_eq_data_ptr (cx : LayoutCx) (pointee : Ty)
    (h : cx.isSized (cx.normalize pointee) = true) :
    align_of_uncached cx (.ref pointee) = .ok cx.dl.dataPtrAlign ∧
    align_of_uncached cx (.rawPtr pointee) = .ok cx.dl.dataPtrAlign := by
  constructor <;> simp [align_of_uncached, h]

/-- C5 (witness): a reference to bool on the reference context resolves to
the 8-byte data-pointer alignment. -/
theorem thin_ptr_align_eq_data_ptr_witness :
    cxRef.isSized (cxRef.normalize .bool) = true ∧
    align_of_uncached cxRef (.ref .bool) = .ok cxRef.dl.dataPtrAlign :=
  ⟨rfl, (thin_ptr_align_eq_data_ptr cxRef .bool rfl).1⟩

/-- C10: for every coroutine type whose saved-state information is
unavailable from the liveness collaborator, the resolver fails with an
Unknown-kind layout failure for that type, not a fatal abort and not an
alignment. -/
theorem generator_layout_unavailable (cx : LayoutCx) (defId : Nat)
    (prefixTys : TyList) (h : cx.generatorLayout defId = none) :
    align_of_uncached cx (.generator defId prefixTys) =
      .err (.Unknown (.generator defId prefixTys)) := by
  simp [align_of_uncached, generator_align, h]

/-- C10 (witness): the reference context has no coroutine saved-state
information, so resolving a coroutine type yields an Unknown failure. -/
theorem generator_layout_unavailable_witness :
    cxRef.generatorLayout 0 = none ∧
    align_of_uncached cxRef (.generator 0 .nil) = .err (.Unknown (.generator 0 .nil)) :=
  ⟨rfl, generator_layout_unavailable cxRef 0 .nil rfl⟩

/-- C8: for an idempotent normalizer, when normalization fails the
resolver returns a NormalizationFailure, and when it succeeds the resolver
returns the same result as the resolver applied to the normalized type:
a differing normalized form is handled by re-issuing the query on it, and
re-resolving an already-normalized type yields the identical result. -/
theorem align_of_normalization (cx : LayoutCx) (ty : Ty)
    (hidem : ∀ u v, cx.tryNormalize u = some v → cx.tryNormalize v = some v) :
    (cx.tryNormalize ty = none → resolve cx ty = .err (.NormalizationFailure ty)) ∧
    (∀ t, cx.tryNormalize ty = some t → resolve cx ty = resolve cx t) := by
  constructor
  · intro hn
    simp [resolve, align_of, hn]
  · intro t hn
    by_cases hteq : t = ty
    · subst hteq; rfl
    · have hnt := hidem ty t hn
      have h1 : align_of 2 cx ty = align_of 1 cx t := by
        simp [align_of, hn, hteq]
      have h2 : align_of 1 cx t = align_of_uncached cx t := by
        simp [align_of, hnt]
      have h3 : align_of 2 cx t = align_of_uncached cx t := by
        simp [align_of, hnt]
      show align_of 2 cx ty = align_of 2 cx t
      rw [h1, h2, h3]

/-- A context whose normalizer rewrites every type to bool, used to
witness re-issuing the query on a changed normalized form. -/
def cxNorm : LayoutCx := { cxRef with tryNormalize := fun _ => some .bool }

/-- C8 (witness): on `cxNorm`, resolving char re-issues the query on the
normalized type bool and agrees with resolving bool directly. -/
theorem align_of_normalization_witness :
    cxNorm.tryNormalize .char = some .bool ∧
    resolve cxNorm .char = resolve cxNorm .bool :=
  ⟨rfl, (align_of_normalization cxNorm .char
    (fun u v h => by cases h; rfl)).2 .bool rfl⟩

/-- C6: for every valid SIMD vector struct — homogeneous fields, element
type and lane count derived by the extraction rule (from the single
array-typed field's element and layout-reported count, or from the
homogeneous field type and the field count), nonzero count within the
lane limit, scalar element, no size overflow — the resolved alignment is
the target's vector alignment for the total byte size
`element_size * count`, not the element's own alignment. -/
theorem simd_vector_align (cx : LayoutCx) (repr : ReprOptions) (f0 : Ty)
    (rest : TyList) (moreVariants : TyVariants) (eTy : Ty) (eLen : Nat)
    (p : Primitive) (l0 : LayoutS)
    (hsimd : repr.simd = true)
    (hhom : ∀ fi ∈ (TyList.cons f0 rest).toList, fi = f0)
    (hext : simdElementInfo cx
      (.adt true false repr (.cons (.cons f0 rest) moreVariants)) f0
      (TyList.cons f0 rest).toList.length = .ok (eTy, eLen))
    (h0 : eLen ≠ 0)
    (hlanes : eLen ≤ MAX_SIMD_LANES)
    (hlay : cx.layoutOf eTy = .ok l0)
    (habi : l0.abi = .Scalar p)
    (hsize : l0.size * eLen ≤ cx.dl.objSizeBound) :
    align_of_uncached cx (.adt true false repr (.cons (.cons f0 rest) moreVariants)) =
      .ok (cx.dl.vectorAlignFn (l0.size * eLen)) := by
  have hfind : (TyList.cons f0 rest).toList.find? (fun fi => decide (fi ≠ f0)) = none :=
    List.find?_eq_none.mpr (fun x hx => by simp [hhom x hx])
  simp only [TyList.toList, List.length_cons] at hfind hext
  simp only [align_of_uncached, hsimd, if_true, TyVariants.toList, TyList.toList,
    List.headD, List.isEmpty_cons, Bool.not_true, Bool.false_eq_true, if_false,
    List.length_cons, hfind, hext, hlay, habi, checkedMul]
  rw [if_neg h0, if_neg (Nat.not_lt.mpr hlanes), if_pos hsize]

/-- C6 (witness): the single-array-field SIMD form (a struct whose one
field is a four-element i32 array) on the reference context resolves to
the target vector alignment of its 16 total bytes (here 16, not the
element's own 4-byte alignment). -/
theorem simd_vector_align_witness :
    align_of_uncached cxRef
      (.adt true false ⟨none, none, true, false⟩
        (.cons (.cons (.array (.int .i32) 4) .nil) .nil)) =
      .ok (cxRef.dl.vectorAlignFn ((LayoutS.scalar dlRef (.int .I32 true)).size * 4)) :=
  simd_vector_align cxRef ⟨none, none, true, false⟩ (.array (.int .i32) 4) .nil .nil
    (.int .i32) 4 (.int .I32 true) (LayoutS.scalar dlRef (.int .I32 true))
    rfl (by decide) rfl (by decide) (by decide) rfl rfl (by decide)

/-- C7: for every SIMD vector struct containing a field whose type differs
from the first field's type, resolution terminates with the
heterogeneous-SIMD fatal engine fault, not a returned layout failure. -/
theorem simd_heterogeneous_fatal (cx : LayoutCx) (repr : ReprOptions) (f0 : Ty)
    (rest : TyList) (moreVariants : TyVariants) (fi : Ty)
    (hsimd : repr.simd = true)
    (hmem : fi ∈ (TyList.cons f0 rest).toList) (hne : fi ≠ f0) :
    align_of_uncached cx (.adt true false repr (.cons (.cons f0 rest) moreVariants)) =
      .fatal "monomorphising heterogeneous SIMD type" := by
  have hsome : ((TyList.cons f0 rest).toList.find? (fun x => decide (x ≠ f0))).isSome = true :=
    List.find?_isSome.mpr ⟨fi, hmem, by simp [hne]⟩
  obtain ⟨y, hy⟩ := Option.isSome_iff_exists.mp hsome
  simp only [TyList.toList] at hy
  simp only [align_of_uncached, hsimd, if_true, TyVariants.toList, TyList.toList,
    List.headD, List.isEmpty_cons, Bool.not_true, Bool.false_eq_true, if_false, hy]

/-- C7 (witness): a SIMD struct with an i32 field and an f32 field on the
reference context terminates with the heterogeneous-SIMD fault. -/
theorem simd_heterogeneous_fatal_witness :
    (Ty.float .f32) ≠ (Ty.int .i32) ∧
    align_of_uncached cxRef
      (.adt true false ⟨none, none, true, false⟩
        (.cons (.cons (.int .i32) (.cons (.float .f32) .nil)) .nil)) =
      .fatal "monomorphising heterogeneous SIMD type" :=
  ⟨by decide, simd_heterogeneous_fatal cxRef ⟨none, none, true, false⟩ (.int .i32)
    (.cons (.float .f32) .nil) .nil (.float .f32) rfl (by decide) (by decide)⟩
